import Mathlib

/-!
# Verification of `d2l-organization-hm-mixin.js` (Brightspace/utility-behavior)

Shallow embedding of the organization hypermedia image mixin: the link
classifier (`_getImageLinks`), the best-type selector (`_getBestImageLinks`),
the srcset builder (`_getSrcSet` / `_getSrcsetBreakpoints`) and the three
entry points (`getPictureSrcsets`, `getImageSrcset`, `getDefaultImageLink`).

Modelling conventions:
* JavaScript strings are `String`; `undefined` is `Option.none`; a value that
  can be `undefined` or a string is `Option String` (`some ""` is a defined
  but falsy string, distinct from `none`).
* A JS object used as a string-keyed dictionary is an association list
  `List (String × α)`; property write keeps the position of an existing key
  and appends a fresh key, matching JS insertion-order semantics for
  non-integer keys.  Prototype-chain lookups are not modelled: lookups see
  own properties only.
* `Date.now()` is an explicit `now : Nat` parameter threaded to the builder.
* A thrown `TypeError` is `Except.error`.
-/

namespace OrgHM

/-- JS truthiness of a value that is `undefined` or a string:
truthy iff defined and nonempty. -/
def jsTruthy : Option String → Bool
  | none => false
  | some s => s ≠ ""

/-- JS `a || b` on values that are `undefined`-or-string. -/
def jsOr (a b : Option String) : Option String :=
  if jsTruthy a then a else b

/-- Defaulting `param || defaultString` for a string parameter (JS line 80:
`imageClass || 'tile'`): an `undefined` or empty-string argument falls back
to the default. -/
def jsOrDefault (a : Option String) (d : String) : String :=
  match a with
  | none => d
  | some s => if s = "" then d else s

/-- Dictionary read `m[k]`: value of the first (hence only, keys being
unique by construction) entry with key `k`; `none` is JS `undefined`. -/
def getKeyV {α : Type} (m : List (String × α)) (k : String) : Option α :=
  (m.find? (fun p => p.1 = k)).map (fun p => p.2)

/-- Dictionary write `m[k] = v`: overwrite in place when the key exists,
append otherwise (JS insertion-order semantics for string keys). -/
def setKeyV {α : Type} (m : List (String × α)) (k : String) (v : α) :
    List (String × α) :=
  if m.any (fun p => p.1 = k) then
    m.map (fun p => if p.1 = k then (k, v) else p)
  else
    m ++ [(k, v)]

/-- A Siren link as the mixin uses it: target URL (`href`), media type
(`type`) and its set of class tags. -/
structure Link where
  href : String
  type : String
  classes : List String
  deriving Repr, DecidableEq

/-- Class membership test `link.hasClass(c)`. -/
def Link.hasClass (l : Link) (c : String) : Bool :=
  l.classes.contains c

/-- The hydrated Siren organization-image entity, reduced to the two
capabilities the mixin reads: the (possibly absent) bare `href` that marks
an unhydrated linked entity, and the external accessor
`getLinksByClass` (§6 of the design: an upstream collaborator that returns
the links carrying a given class). -/
structure Image where
  href : Option String
  getLinksByClass : String → List Link

/-- A per-type size map `sizeKey → url` (JS object, insertion ordered). -/
abbrev SizeMap := List (String × String)

/-- The classifier output `mediaType → SizeMap` (JS object, insertion
ordered). -/
abbrev LinksByType := List (String × SizeMap)

/-- Line 7: `this._sizeNames`. -/
def _sizeNames : List String :=
  ["lowMin", "lowMid", "lowMax", "highMin", "highMid", "highMax"]

/-- Lines 10-13: the `tile` breakpoint table, as a partial map from size
name to pixel width. -/
def tileTable : String → Option Nat := fun n =>
  if n = "lowMin" then some 145 else if n = "lowMid" then some 220
  else if n = "lowMax" then some 540 else if n = "highMin" then some 290
  else if n = "highMid" then some 440 else if n = "highMax" then some 1080
  else none

/-- Lines 14-17: the `narrow` breakpoint table. -/
def narrowTable : String → Option Nat := fun n =>
  if n = "lowMin" then some 320 else if n = "lowMid" then some 375
  else if n = "lowMax" then some 767 else if n = "highMin" then some 640
  else if n = "highMid" then some 750 else if n = "highMax" then some 1534
  else none

/-- Lines 123-127: `_getSrcsetBreakpoints` — `breakpoints[imageClass] ||
breakpoints.narrow`.  Only the keys `tile` and `narrow` exist, so any other
(or absent) `imageClass` falls back to `narrow`. -/
def _getSrcsetBreakpoints (imageClass : Option String) : String → Option Nat :=
  if imageClass = some "tile" then tileTable
  else if imageClass = some "narrow" then narrowTable
  else narrowTable

/-- Line 84: `link.hasClass('min') && 'Min' || link.hasClass('mid') && 'Mid'
|| link.hasClass('max') && 'Max'`.  When no size class is present the JS
expression evaluates to the boolean `false`, which string concatenation
renders as `"false"`. -/
def classifySize (l : Link) : String :=
  if l.hasClass "min" then "Min"
  else if l.hasClass "mid" then "Mid"
  else if l.hasClass "max" then "Max"
  else "false"

/-- Line 85: `link.hasClass('high-density') ? 'high' : 'low'`. -/
def classifyDensity (l : Link) : String :=
  if l.hasClass "high-density" then "high" else "low"

/-- Lines 82-87, one iteration of the `forEach`: fetch or create the
per-type map, store `link.href` under `density + size`. -/
def classifyStep (acc : LinksByType) (l : Link) : LinksByType :=
  let sizes := (getKeyV acc l.type).getD []
  setKeyV acc l.type (setKeyV sizes (classifyDensity l ++ classifySize l) l.href)

/-- Lines 79-89: `_getImageLinks`. -/
def _getImageLinks (image : Image) (imageClass : Option String) : LinksByType :=
  (image.getLinksByClass (jsOrDefault imageClass "tile")).foldl classifyStep []

/-- Lines 93-100 of `_getBestImageLinks`, the part operating on the
classifier output: prefer `image/jpeg`, else the first key in insertion
order (`for..in`), else `undefined`. -/
def selectBest (byType : LinksByType) : Option SizeMap :=
  match getKeyV byType "image/jpeg" with
  | some m => some m
  | none => byType.head?.map (fun p => p.2)

/-- Lines 90-101: `_getBestImageLinks`. -/
def _getBestImageLinks (image : Image) (imageClass : Option String) :
    Option SizeMap :=
  selectBest (_getImageLinks image imageClass)

/-- JS `String.prototype.split(sep)` on character lists: `"".split` gives
`[""]`, a trailing separator gives a trailing `""`. -/
def splitChars (sep : Char) : List Char → List (List Char)
  | [] => [[]]
  | c :: cs =>
    if c = sep then [] :: splitChars sep cs
    else
      match splitChars sep cs with
      | [] => [[c]]
      | h :: t => (c :: h) :: t

/-- Line 112's `sizeHref.split('?')`. -/
def jsSplitQ (s : String) : List String :=
  (splitChars '?' s.data).map (fun l => String.mk l)

/-- Lines 112-113: append the cache-busting parameter, choosing `&` when
`sizeHref.split('?')[1]` is truthy and `?` otherwise. -/
def bustHref (href : String) (now : Nat) : String :=
  let separator := if jsTruthy ((jsSplitQ href).get? 1) then "&" else "?"
  href ++ separator ++ "timestamp=" ++ toString now

/-- Rendering of `breakpoints[sizeName]` by string concatenation:
a missing width would print as `undefined`. -/
def jsNumStr : Option Nat → String
  | some w => toString w
  | none => "undefined"

/-- JS whitespace class `\s` restricted to ASCII (all that can occur
here). -/
def isJsWs (c : Char) : Bool :=
  c = ' ' || c = '\t' || c = '\n' || c = '\r' || c = '\x0b' || c = '\x0c'

/-- Line 120: `srcset.replace(/,\s*$/, '')` — strip one trailing comma
together with any whitespace after it; leave the string unchanged when it
does not end that way. -/
def stripTrailing (s : String) : String :=
  match s.data.reverse.dropWhile isJsWs with
  | ',' :: rest => String.mk rest.reverse
  | _ => s

/-- Lines 105-118, the body of the `reduce` callback: skip a falsy
(`undefined` or empty) entry, otherwise optionally cache-bust and append
`"<url> <width>w, "`. -/
def srcsetStep (sizes : SizeMap) (breakpoints : String → Option Nat)
    (forceImageRefresh : Bool) (now : Nat) (srcset : String)
    (sizeName : String) : String :=
  match getKeyV sizes sizeName with
  | none => srcset
  | some href =>
    if href = "" then srcset
    else
      let sizeHref := if forceImageRefresh then bustHref href now else href
      srcset ++ sizeHref ++ " " ++ jsNumStr (breakpoints sizeName) ++ "w, "

/-- Lines 102-121: `_getSrcSet` on a defined size map.  The reduce walks
`_sizeNames` in order accumulating from `''`; the trailing separator is
stripped at the end. -/
def _getSrcSet (sizes : SizeMap) (imageClass : Option String)
    (forceImageRefresh : Bool) (now : Nat) : String :=
  stripTrailing
    (_sizeNames.foldl
      (srcsetStep sizes (_getSrcsetBreakpoints imageClass) forceImageRefresh now) "")

/-- Message of the `TypeError` raised by reading a property of
`undefined`. -/
def typeErrorMsg : String := "TypeError: cannot read properties of undefined"

/-- The builder `_getSrcSet` as actually callable from JS, where `sizes` may be
`undefined` (line 57 passes `_getBestImageLinks`'s result unchecked): the
first body line of the reduce callback reads `sizes[sizeName]`, and
`_sizeNames` is never empty, so an `undefined` argument always throws. -/
def _getSrcSetJS (sizes : Option SizeMap) (imageClass : Option String)
    (forceImageRefresh : Bool) (now : Nat) : Except String String :=
  match sizes with
  | none => Except.error typeErrorMsg
  | some m => Except.ok (_getSrcSet m imageClass forceImageRefresh now)

/-- Lines 29-42: `getPictureSrcsets`.  `none` models the bare `return;` on
an absent or unhydrated (truthy `href`) entity; otherwise one
`(type, srcset)` pair per media type, in the classifier's insertion
order. -/
def getPictureSrcsets (image : Option Image) (imageClass : Option String)
    (forceImageRefresh : Bool) (now : Nat) :
    Option (List (String × String)) :=
  match image with
  | none => none
  | some img =>
    if jsTruthy img.href then none
    else
      let linksByType := _getImageLinks img imageClass
      some (linksByType.map (fun p => (p.1, _getSrcSet p.2 imageClass forceImageRefresh now)))

/-- Lines 51-59: `getImageSrcset`.  `Except.ok none` is the bare `return;`
for an absent/unhydrated entity; the builder may throw when the selector
produced `undefined`. -/
def getImageSrcset (image : Option Image) (imageClass : Option String)
    (forceImageRefresh : Bool) (now : Nat) : Except String (Option String) :=
  match image with
  | none => Except.ok none
  | some img =>
    if jsTruthy img.href then Except.ok none
    else
      match _getSrcSetJS (_getBestImageLinks img imageClass) imageClass forceImageRefresh now with
      | Except.error e => Except.error e
      | Except.ok s => Except.ok (some s)

/-- Lines 68-78: `getDefaultImageLink`.  The `||` chain over the six size
keys in size-major preference order; `none` models both `return;` guards
and an all-`undefined` chain. -/
def getDefaultImageLink (image : Option Image) (imageClass : Option String) :
    Option String :=
  match image with
  | none => none
  | some img =>
    if jsTruthy img.href then none
    else
      match _getBestImageLinks img imageClass with
      | none => none
      | some sizes =>
        jsOr (getKeyV sizes "highMax") (jsOr (getKeyV sizes "lowMax")
          (jsOr (getKeyV sizes "highMid") (jsOr (getKeyV sizes "lowMid")
            (jsOr (getKeyV sizes "highMin") (getKeyV sizes "lowMin")))))

/-! ## Statement-side characterizations

Companion definitions used only to state properties of the embedded code;
the theorems below connect them to the definitions translated from the
source. -/

/-- The size names (in canonical order) whose entry in `sizes` is truthy —
exactly the entries the builder emits a descriptor for. -/
def presentNames (sizes : SizeMap) : List String :=
  _sizeNames.filter (fun n => jsTruthy (getKeyV sizes n))

/-- The single descriptor the step function emits for size name `n` under
breakpoint table `bp` (without the trailing separator). -/
def rawDesc (sizes : SizeMap) (bp : String → Option Nat) (bust : Bool)
    (now : Nat) (n : String) : String :=
  (if bust then bustHref ((getKeyV sizes n).getD "") now
   else (getKeyV sizes n).getD "") ++ " " ++ jsNumStr (bp n) ++ "w"

/-- The single descriptor the builder emits for size name `n`
(without the trailing separator). -/
def descFor (sizes : SizeMap) (imageClass : Option String) (bust : Bool)
    (now : Nat) (n : String) : String :=
  rawDesc sizes (_getSrcsetBreakpoints imageClass) bust now n

/-- Concatenate a list of strings. -/
def joinAll : List String → String
  | [] => ""
  | d :: ds => d ++ joinAll ds

/-- All descriptors the builder emits, in emission order. -/
def descList (sizes : SizeMap) (imageClass : Option String) (bust : Bool)
    (now : Nat) : List String :=
  (presentNames sizes).map (descFor sizes imageClass bust now)

/-- Join a list of strings with a separator (no trailing separator). -/
def joinSep (sep : String) : List String → String
  | [] => ""
  | [d] => d
  | d :: ds => d ++ sep ++ joinSep sep ds

/-- The breakpoint widths attached to the emitted descriptors, in emission
order. -/
def emittedWidths (sizes : SizeMap) (imageClass : Option String) : List Nat :=
  (presentNames sizes).filterMap (_getSrcsetBreakpoints imageClass)

/-- Parse the width of one descriptor `"<url> <width>w"`: the digits of the
final space-separated token with its trailing `w` removed. -/
def descWidthOf (d : List Char) : Nat :=
  ((d.reverse.takeWhile (fun c => !(c = ' '))).reverse.dropLast).foldl
    (fun n c => n * 10 + (c.toNat - 48)) 0

/-- Parse all descriptor widths out of a srcset string. -/
def descriptorWidths (s : String) : List Nat :=
  if s = "" then [] else (splitChars ',' s.data).map descWidthOf

/-- The size-key preference order of `getDefaultImageLink` (line 77). -/
def prefNames : List String :=
  ["highMax", "lowMax", "highMid", "lowMid", "highMin", "lowMin"]

/-! ## Concrete entities used as test inputs -/

/-- The spec's end-to-end example entity: two `image/jpeg` links carrying
class `tile`, one `min` low-density, one `min` high-density. -/
def exImage : Image :=
  { href := none
    getLinksByClass := fun c =>
      if c = "tile" then
        [{ href := "a.jpg", type := "image/jpeg", classes := ["tile", "min"] },
         { href := "b.jpg", type := "image/jpeg", classes := ["tile", "min", "high-density"] }]
      else [] }

/-- A hydrated entity with a single `image/png` link that carries the
`tile` class but no size-tier class at all. -/
def pngOnlyImage : Image :=
  { href := none
    getLinksByClass := fun c =>
      if c = "tile" then
        [{ href := "x.png", type := "image/png", classes := ["tile"] }]
      else [] }

/-- A hydrated entity with no links for any class. -/
def emptyImage : Image :=
  { href := none, getLinksByClass := fun _ => [] }

/-- A hydrated entity whose classified sizes are `lowMax ↦ "A"` and
`highMid ↦ "B"` (the spec's `getDefaultImageLink` example). -/
def prefImage : Image :=
  { href := none
    getLinksByClass := fun c =>
      if c = "tile" then
        [{ href := "A", type := "image/jpeg", classes := ["tile", "max"] },
         { href := "B", type := "image/jpeg", classes := ["tile", "mid", "high-density"] }]
      else [] }

/-- Executable strict-ascent check on a width sequence. -/
def ascChain : List Nat → Bool
  | [] => true
  | [_] => true
  | a :: b :: t => decide (a < b) && ascChain (b :: t)

/-- Executable non-decrease check on a width sequence. -/
def nondecChain : List Nat → Bool
  | [] => true
  | [_] => true
  | a :: b :: t => decide (a ≤ b) && nondecChain (b :: t)

/-! ## Helper lemmas -/

/-- Agreement of `ascChain` with `List.Chain' (· < ·)`. -/
theorem ascChain_iff (l : List Nat) :
    ascChain l = true ↔ List.Chain' (fun a b => a < b) l := by
  induction l with
  | nil => simp [ascChain]
  | cons a t ih =>
    cases t with
    | nil => simp [ascChain]
    | cons b t' =>
      simp only [ascChain, Bool.and_eq_true, decide_eq_true_eq,
        List.chain'_cons] at *
      exact and_congr Iff.rfl ih

/-- Agreement of `nondecChain` with `List.Chain' (· ≤ ·)`. -/
theorem nondecChain_iff (l : List Nat) :
    nondecChain l = true ↔ List.Chain' (fun a b => a ≤ b) l := by
  induction l with
  | nil => simp [nondecChain]
  | cons a t ih =>
    cases t with
    | nil => simp [nondecChain]
    | cons b t' =>
      simp only [nondecChain, Bool.and_eq_true, decide_eq_true_eq,
        List.chain'_cons] at *
      exact and_congr Iff.rfl ih

/-- An entry of an updated dictionary is the written pair or an original
entry. -/
theorem mem_setKeyV {α : Type} (m : List (String × α)) (k : String) (v : α)
    (p : String × α) (hp : p ∈ setKeyV m k v) : p = (k, v) ∨ p ∈ m := by
  unfold setKeyV at hp
  split at hp
  · rcases List.mem_map.mp hp with ⟨q, hq, hpq⟩
    by_cases h : q.1 = k
    · rw [if_pos h] at hpq; exact Or.inl hpq.symm
    · rw [if_neg h] at hpq; exact Or.inr (hpq ▸ hq)
  · rcases List.mem_append.mp hp with h | h
    · exact Or.inr h
    · exact Or.inl (List.mem_singleton.mp h)

/-- A successful dictionary read exhibits an entry of the list. -/
theorem getKeyV_mem {α : Type} (m : List (String × α)) (k : String) (v : α)
    (h : getKeyV m k = some v) : (k, v) ∈ m := by
  unfold getKeyV at h
  rcases hf : m.find? (fun p => p.1 = k) with _ | p
  · rw [hf] at h; cases h
  · rw [hf] at h
    simp at h
    have hm := List.mem_of_find?_eq_some hf
    have hk := List.find?_some hf
    simp only [decide_eq_true_eq] at hk
    have : (k, v) = p := by rw [← hk, ← h]
    rw [this]; exact hm

/-- Whatever classes a link carries, the classifier's key for it is one of
the six size keys or the two junk keys `lowfalse` / `highfalse`. -/
theorem classKey_mem (l : Link) :
    classifyDensity l ++ classifySize l ∈ _sizeNames ++ ["lowfalse", "highfalse"] := by
  cases h1 : l.hasClass "high-density" <;> cases h2 : l.hasClass "min" <;>
    cases h3 : l.hasClass "mid" <;> cases h4 : l.hasClass "max" <;>
      simp only [classifyDensity, classifySize, h1, h2, h3, h4] <;> decide

/-- Preservation of an invariant along a fold. -/
theorem foldl_inv {α β : Type} (P : β → Prop) (f : β → α → β)
    (hf : ∀ b a, P b → P (f b a)) :
    ∀ (l : List α) (b : β), P b → P (l.foldl f b) := by
  intro l
  induction l with
  | nil => exact fun b hb => hb
  | cons x xs ih => exact fun b hb => ih (f b x) (hf b x hb)

/-- With cache-busting off, the reduce step never reads the clock. -/
theorem srcsetStep_now_irrel (sizes : SizeMap) (bp : String → Option Nat)
    (t : Nat) : srcsetStep sizes bp false t = srcsetStep sizes bp false 0 := by
  funext acc n
  simp [srcsetStep]

/-- With cache-busting off, the builder never reads the clock. -/
theorem getSrcSet_now_irrel (sizes : SizeMap) (cls : Option String) (t : Nat) :
    _getSrcSet sizes cls false t = _getSrcSet sizes cls false 0 := by
  unfold _getSrcSet
  rw [srcsetStep_now_irrel]

/-- In a size map whose values are all nonempty, a read is either absent
or a nonempty string. -/
theorem getKeyV_ne_empty (m : SizeMap) (hm : ∀ p ∈ m, p.2 ≠ "") (k : String) :
    getKeyV m k = none ∨ ∃ v, getKeyV m k = some v ∧ v ≠ "" := by
  rcases h : getKeyV m k with _ | v
  · exact Or.inl rfl
  · exact Or.inr ⟨v, rfl, hm (k, v) (getKeyV_mem _ _ _ h)⟩

/-- Over a map with no empty values, a `||` chain of reads (ending in
`undefined`) returns the first present key's value. -/
theorem jsOr_chain (m : SizeMap) (hm : ∀ p ∈ m, p.2 ≠ "") :
    ∀ ks : List String,
      ks.foldr (fun k acc => jsOr (getKeyV m k) acc) none =
        (ks.filterMap (fun k => getKeyV m k)).head? := by
  intro ks
  induction ks with
  | nil => rfl
  | cons k t ih =>
    simp only [List.foldr_cons, List.filterMap_cons]
    rcases getKeyV_ne_empty m hm k with h | ⟨v, h, hv⟩
    · rw [h, ih]; simp [jsOr, jsTruthy]
    · rw [h]; simp [jsOr, jsTruthy, hv]

/-- The split `splitChars` never returns an empty list of pieces. -/
theorem splitChars_ne_nil (sep : Char) (l : List Char) :
    splitChars sep l ≠ [] := by
  cases l with
  | nil => simp [splitChars]
  | cons c cs =>
    by_cases h : c = sep
    · simp [splitChars, h]
    · simp only [splitChars, if_neg h]
      rcases hs : splitChars sep cs with _ | ⟨h0, t⟩ <;> simp

/-- The first piece of a split is the run of characters before the first
separator. -/
theorem splitChars_head (sep : Char) (l : List Char) :
    (splitChars sep l).head? = some (l.takeWhile (fun c => !(c = sep))) := by
  induction l with
  | nil => rfl
  | cons c cs ih =>
    by_cases h : c = sep
    · simp [splitChars, h, List.takeWhile_cons]
    · simp only [splitChars, if_neg h]
      rcases hs : splitChars sep cs with _ | ⟨h0, t⟩
      · exact absurd hs (splitChars_ne_nil sep cs)
      · rw [hs] at ih
        simp only [List.head?_cons, Option.some.injEq] at ih
        simp [List.takeWhile_cons, h, ih]

/-- Splitting a list that contains no separator yields that one piece. -/
theorem splitChars_not_mem (sep : Char) (l : List Char) (h : sep ∉ l) :
    splitChars sep l = [l] := by
  induction l with
  | nil => rfl
  | cons c cs ih =>
    simp only [List.mem_cons, not_or] at h
    have h1 : ¬(c = sep) := fun hc => h.1 hc.symm
    simp only [splitChars, if_neg h1, ih h.2]

/-- Splitting at an explicit first separator. -/
theorem splitChars_append (sep : Char) (a b : List Char) (h : sep ∉ a) :
    splitChars sep (a ++ sep :: b) = a :: splitChars sep b := by
  induction a with
  | nil => simp [splitChars]
  | cons c cs ih =>
    simp only [List.mem_cons, not_or] at h
    have h1 : ¬(c = sep) := fun hc => h.1 hc.symm
    simp only [List.cons_append, splitChars, if_neg h1, List.append_eq, ih h.2]

/-- The breakpoint resolver only ever returns one of the two static
tables. -/
theorem bp_cases (cls : Option String) :
    _getSrcsetBreakpoints cls = tileTable ∨ _getSrcsetBreakpoints cls = narrowTable := by
  unfold _getSrcsetBreakpoints
  split
  · exact Or.inl rfl
  · split
    · exact Or.inr rfl
    · exact Or.inr rfl

/-- One reduce step appends the descriptor (with separator) of a truthy
entry and nothing otherwise. -/
theorem srcsetStep_eq (sizes : SizeMap) (bp : String → Option Nat)
    (bust : Bool) (now : Nat) (acc n : String) :
    srcsetStep sizes bp bust now acc n =
      acc ++ (if jsTruthy (getKeyV sizes n) then rawDesc sizes bp bust now n ++ ", "
              else "") := by
  unfold srcsetStep rawDesc
  rcases h : getKeyV sizes n with _ | href
  · simp [h, jsTruthy, String.append_empty]
  · by_cases he : href = ""
    · simp [h, he, jsTruthy, String.append_empty]
    · have ht : jsTruthy (some href) = true := decide_eq_true he
      simp only [h, ht, if_true, if_neg he, Option.getD_some, String.append_assoc]
      rfl

/-- The reduce over any name list equals the accumulator followed by the
concatenated descriptors of the truthy entries. -/
theorem foldl_srcset (sizes : SizeMap) (bp : String → Option Nat)
    (bust : Bool) (now : Nat) :
    ∀ (names : List String) (acc : String),
      names.foldl (srcsetStep sizes bp bust now) acc =
        acc ++ joinAll ((names.filter (fun n => jsTruthy (getKeyV sizes n))).map
          (fun n => rawDesc sizes bp bust now n ++ ", ")) := by
  intro names
  induction names with
  | nil => intro acc; simp [joinAll, String.append_empty]
  | cons n ns ih =>
    intro acc
    simp only [List.foldl_cons, ih, srcsetStep_eq, List.filter_cons]
    by_cases h : jsTruthy (getKeyV sizes n)
    · simp only [h, if_true, List.map_cons, joinAll, String.append_assoc]
    · simp only [h, Bool.false_eq_true, if_false, String.append_empty]

/-- Stripping the regex `/,\s*$/` off a string that ends in `", "` removes
exactly that trailing separator. -/
theorem stripTrailing_append_sep (X : String) :
    stripTrailing (X ++ ", ") = X := by
  have hscrut : (X ++ ", ").data.reverse.dropWhile isJsWs =
      ',' :: X.data.reverse := by
    rw [String.data_append]
    rw [show (", " : String).data = [',', ' '] from rfl]
    rw [List.reverse_append]
    rfl
  unfold stripTrailing
  rw [hscrut]
  show String.mk X.data.reverse.reverse = X
  rw [List.reverse_reverse]

/-- Concatenating descriptors each followed by `", "` and then stripping
the trailing separator is joining them with `", "`. -/
theorem joinAll_sep :
    ∀ ds : List String,
      stripTrailing (joinAll (ds.map (fun d => d ++ ", "))) = joinSep ", " ds := by
  have hcons : ∀ (d : String) (ds : List String),
      joinAll ((d :: ds).map (fun x => x ++ ", ")) = joinSep ", " (d :: ds) ++ ", " := by
    intro d ds
    induction ds generalizing d with
    | nil => simp [joinAll, joinSep, String.append_empty]
    | cons e es ih =>
      simp only [List.map_cons, joinAll] at *
      rw [ih e]
      simp [joinSep, String.append_assoc]
  intro ds
  cases ds with
  | nil => rfl
  | cons d ds =>
    rw [hcons d ds, stripTrailing_append_sep]

/-- The builder's output is exactly its descriptor list joined with
`", "`. -/
theorem getSrcSet_eq_joinSep (sizes : SizeMap) (cls : Option String)
    (bust : Bool) (now : Nat) :
    _getSrcSet sizes cls bust now = joinSep ", " (descList sizes cls bust now) := by
  unfold _getSrcSet
  rw [foldl_srcset, String.empty_append]
  have hmap : ((_sizeNames.filter (fun n => jsTruthy (getKeyV sizes n))).map
      (fun n => rawDesc sizes (_getSrcsetBreakpoints cls) bust now n ++ ", ")) =
      (descList sizes cls bust now).map (fun d => d ++ ", ") := by
    simp [descList, descFor, presentNames, List.map_map, Function.comp]
  rw [hmap, joinAll_sep]

/-! ## Claim theorems -/

/-- C4 counterexample: for the size map `{lowMax ↦ "a", highMin ↦ "b"}`
under the `tile` context, the builder emits `"a 540w, b 290w"` — descriptor
widths 540 then 290, which are *not* non-decreasing left to right. -/
theorem C4_counterexample :
    _getSrcSet [("lowMax", "a"), ("highMin", "b")] (some "tile") false 0 =
      "a 540w, b 290w" ∧
    descriptorWidths
      (_getSrcSet [("lowMax", "a"), ("highMin", "b")] (some "tile") false 0) =
      [540, 290] ∧
    nondecChain [540, 290] = false :=
  ⟨rfl, rfl, rfl⟩

/-- C4 amended: the builder's output is its descriptors joined in canonical
SizeKey order, whose widths form a subsequence of the table's canonical
width sequence — non-decreasing *within* each density group (for any usage
context, since both tables ascend within groups), but possibly decreasing
at the low-to-high density boundary. -/
theorem C4_srcset_order_amended (sizes : SizeMap) (cls : Option String)
    (bust : Bool) (now : Nat) :
    _getSrcSet sizes cls bust now = joinSep ", " (descList sizes cls bust now) ∧
    List.Sublist (emittedWidths sizes cls)
      (_sizeNames.filterMap (_getSrcsetBreakpoints cls)) ∧
    nondecChain ((["lowMin", "lowMid", "lowMax"].filter
      (fun n => jsTruthy (getKeyV sizes n))).filterMap
        (_getSrcsetBreakpoints cls)) = true ∧
    nondecChain ((["highMin", "highMid", "highMax"].filter
      (fun n => jsTruthy (getKeyV sizes n))).filterMap
        (_getSrcsetBreakpoints cls)) = true := by
  refine ⟨getSrcSet_eq_joinSep sizes cls bust now, ?_, ?_, ?_⟩
  · simp only [emittedWidths, presentNames]
    exact (List.filter_sublist _).filterMap _
  · rw [nondecChain_iff]
    rcases bp_cases cls with h | h <;> rw [h]
    · exact List.Chain'.sublist
        ((nondecChain_iff (["lowMin", "lowMid", "lowMax"].filterMap tileTable)).mp rfl)
        ((List.filter_sublist _).filterMap _)
    · exact List.Chain'.sublist
        ((nondecChain_iff (["lowMin", "lowMid", "lowMax"].filterMap narrowTable)).mp rfl)
        ((List.filter_sublist _).filterMap _)
  · rw [nondecChain_iff]
    rcases bp_cases cls with h | h <;> rw [h]
    · exact List.Chain'.sublist
        ((nondecChain_iff (["highMin", "highMid", "highMax"].filterMap tileTable)).mp rfl)
        ((List.filter_sublist _).filterMap _)
    · exact List.Chain'.sublist
        ((nondecChain_iff (["highMin", "highMid", "highMax"].filterMap narrowTable)).mp rfl)
        ((List.filter_sublist _).filterMap _)

/-- C5: on the spec's end-to-end example (two `image/jpeg` links, classes
`tile`+`min` and `tile`+`min`+`high-density`, `imageClass = "tile"`, no
cache-busting) `getImageSrcset` returns exactly `"a.jpg 145w, b.jpg 290w"`. -/
theorem C5_end_to_end :
    getImageSrcset (some exImage) (some "tile") false 0 =
      Except.ok (some "a.jpg 145w, b.jpg 290w") := by
  rfl

/-- C2 (code bug evidence): on a hydrated image with zero links of the
requested class, `_getBestImageLinks` yields `undefined` and `_getSrcSet`
dereferences it, so `getImageSrcset` raises a `TypeError` instead of
returning an absent value or empty string. -/
theorem C2_throw_on_empty :
    getImageSrcset (some emptyImage) (some "tile") false 0 =
      Except.error typeErrorMsg := by
  rfl

/-- C3 counterexample: the `tile` breakpoint widths taken in the canonical
SizeKey order (145, 220, 540, 290, 440, 1080) are not strictly increasing:
`lowMax = 540` is followed by `highMin = 290`. -/
theorem C3_counterexample :
    ascChain (_sizeNames.filterMap tileTable) = false := by
  rfl

/-- C3 amended: every width in both tables is a positive integer and the
widths are strictly increasing within each density group (`lowMin < lowMid
< lowMax` and `highMin < highMid < highMax`), though not across the
low-to-high boundary. -/
theorem C3_tables_amended :
    ascChain (0 :: ["lowMin", "lowMid", "lowMax"].filterMap tileTable) = true ∧
    ascChain (0 :: ["highMin", "highMid", "highMax"].filterMap tileTable) = true ∧
    ascChain (0 :: ["lowMin", "lowMid", "lowMax"].filterMap narrowTable) = true ∧
    ascChain (0 :: ["highMin", "highMid", "highMax"].filterMap narrowTable) = true := by
  exact ⟨rfl, rfl, rfl, rfl⟩

/-- C1 counterexample: a single `image/png` link with class `tile` and no
size-tier class is not dropped — the classifier stores its href under the
key `"lowfalse"` (JS `'low' + false`), so the media type does get an entry
and that entry's key is not one of the six SizeKeys. -/
theorem C1_counterexample :
    _getImageLinks pngOnlyImage (some "tile") =
      [("image/png", [("lowfalse", "x.png")])] ∧
    _sizeNames.contains "lowfalse" = false ∧
    (getKeyV (_getImageLinks pngOnlyImage (some "tile")) "image/png").isSome =
      true := by
  exact ⟨rfl, rfl, rfl⟩

/-- C1 amended: every key of every per-type size map produced by
`_getImageLinks` is one of the six SizeKeys **or** one of the junk keys
`lowfalse` / `highfalse`; a link with no size-tier class is not dropped but
stored under `density ++ "false"`, so its media type does get an entry
(such entries are invisible to the srcset builder, which only reads the six
canonical keys). -/
theorem C1_keys_amended (img : Image) (cls : Option String) :
    ∀ p ∈ _getImageLinks img cls, ∀ q ∈ p.2,
      q.1 ∈ _sizeNames ++ ["lowfalse", "highfalse"] := by
  unfold _getImageLinks
  refine foldl_inv
    (fun acc => ∀ p ∈ acc, ∀ q ∈ p.2, q.1 ∈ _sizeNames ++ ["lowfalse", "highfalse"])
    classifyStep ?_ _ [] (by simp)
  intro acc l hb p hp q hq
  simp only [classifyStep] at hp
  rcases mem_setKeyV _ _ _ _ hp with hpnew | hpacc
  · rw [hpnew] at hq
    rcases mem_setKeyV _ _ _ _ hq with hqnew | hqold
    · rw [hqnew]; exact classKey_mem l
    · rcases hg : getKeyV acc l.type with _ | m
      · rw [hg] at hqold; simp at hqold
      · rw [hg] at hqold
        simp only [Option.getD_some] at hqold
        exact hb (l.type, m) (getKeyV_mem _ _ _ hg) q hqold
  · exact hb p hpacc q hq

/-- C1 witness: a well-formed classified link concretely yields one of the
allowed keys. -/
theorem C1_keys_witness :
    ("lowMin" : String) ∈ _sizeNames ++ ["lowfalse", "highfalse"] :=
  C1_keys_amended exImage (some "tile")
    ("image/jpeg", [("lowMin", "a.jpg"), ("highMin", "b.jpg")]) (by decide)
    ("lowMin", "a.jpg") (by decide)

/-- C9: on a hydrated image whose link set for the requested class is
empty, `getPictureSrcsets` returns a present empty list (`some []`), not an
absent value, and (being a total function here) cannot raise. -/
theorem C9_empty_sources (img : Image) (cls : Option String) (bust : Bool)
    (now : Nat) (h1 : jsTruthy img.href = false)
    (h2 : img.getLinksByClass (jsOrDefault cls "tile") = []) :
    getPictureSrcsets (some img) cls bust now = some [] := by
  simp [getPictureSrcsets, h1, _getImageLinks, h2]

/-- C9 witness: the empty entity concretely yields `some []`. -/
theorem C9_empty_sources_witness :
    getPictureSrcsets (some emptyImage) (some "tile") false 0 = some [] :=
  C9_empty_sources emptyImage (some "tile") false 0 rfl rfl

/-- C10: with the cache-busting flag off, all three entry points are
deterministic — the two srcset producers are independent of the sampled
clock value, and `getDefaultImageLink` depends only on its arguments. -/
theorem C10_deterministic (image : Option Image) (cls : Option String)
    (t1 t2 : Nat) :
    getPictureSrcsets image cls false t1 = getPictureSrcsets image cls false t2 ∧
    getImageSrcset image cls false t1 = getImageSrcset image cls false t2 ∧
    getDefaultImageLink image cls = getDefaultImageLink image cls := by
  refine ⟨?_, ?_, rfl⟩ <;> rcases image with _ | img <;>
    simp [getPictureSrcsets, getImageSrcset, _getSrcSetJS, getSrcSet_now_irrel]

/-- C7: on a hydrated image, `getDefaultImageLink` returns `undefined` when
the selector yields none, and otherwise (for a size map whose URLs are
nonempty, as URLs are) the value of the first present key in the size-major
preference order `highMax, lowMax, highMid, lowMid, highMin, lowMin`. -/
theorem C7_defaultLink (img : Image) (cls : Option String)
    (hhref : jsTruthy img.href = false) :
    (_getBestImageLinks img cls = none →
      getDefaultImageLink (some img) cls = none) ∧
    (∀ m, _getBestImageLinks img cls = some m → (∀ p ∈ m, p.2 ≠ "") →
      getDefaultImageLink (some img) cls =
        (prefNames.filterMap (fun k => getKeyV m k)).head?) := by
  constructor
  · intro h
    simp [getDefaultImageLink, hhref, h]
  · intro m h hm
    simp only [getDefaultImageLink, hhref, Bool.false_eq_true, if_false, h]
    have hlast : jsOr (getKeyV m "lowMin") none = getKeyV m "lowMin" := by
      rcases getKeyV_ne_empty m hm "lowMin" with h0 | ⟨v, h0, hv⟩
      · simp [h0, jsOr, jsTruthy]
      · simp [h0, jsOr, jsTruthy, hv]
    rw [← jsOr_chain m hm prefNames]
    simp only [prefNames, List.foldr_cons, List.foldr_nil]
    rw [hlast]

/-- C7 witness: the spec's example — sizes `lowMax ↦ "A"`, `highMid ↦ "B"`
— concretely yields `"A"`. -/
theorem C7_defaultLink_witness :
    getDefaultImageLink (some prefImage) (some "tile") = some "A" := by
  have h := (C7_defaultLink prefImage (some "tile") rfl).2
    [("lowMax", "A"), ("highMid", "B")] rfl (by decide)
  exact h.trans (by rfl)

/-- C8: the cache-busting parameter is appended joined with `?` when the
URL contains no `?` at all, and joined with `&` when the URL already has a
(nonempty) query string after its first `?`. -/
theorem C8_cacheBust (href : String) (now : Nat) :
    ('?' ∉ href.data →
      bustHref href now = href ++ "?timestamp=" ++ toString now) ∧
    (∀ a b : String, href = a ++ "?" ++ b → '?' ∉ a.data → b ≠ "" →
      b.data.head? ≠ some '?' →
      bustHref href now = href ++ "&timestamp=" ++ toString now) := by
  constructor
  · intro h
    have hsplit : jsSplitQ href = [href] := by
      unfold jsSplitQ
      rw [splitChars_not_mem '?' href.data h]
      rfl
    have hget : (jsSplitQ href).get? 1 = none := by
      rw [hsplit]
      rfl
    simp only [bustHref, hget, jsTruthy, Bool.false_eq_true, if_false]
    exact congrArg (fun x => x ++ toString now)
      ((String.append_assoc href "?" "timestamp=").trans
        (congrArg (fun x => href ++ x) (by rfl)))
  · intro a b hab ha hb hbq
    have hbd : b.data ≠ [] := by
      intro h0
      apply hb
      cases b with
      | mk l => simp only [String.data] at h0; rw [h0]
    have hdata : href.data = a.data ++ '?' :: b.data := by
      rw [hab, String.data_append, String.data_append, List.append_assoc]
      rfl
    have hsplit : jsSplitQ href =
        String.mk a.data :: (splitChars '?' b.data).map (fun l => String.mk l) := by
      unfold jsSplitQ
      rw [hdata, splitChars_append '?' a.data b.data ha]
      rfl
    have hget : (jsSplitQ href).get? 1 =
        some (String.mk (b.data.takeWhile (fun ch => !(ch = '?')))) := by
      rw [hsplit]
      rcases hs : splitChars '?' b.data with _ | ⟨h0, t0⟩
      · exact absurd hs (splitChars_ne_nil '?' b.data)
      · have hh := splitChars_head '?' b.data
        rw [hs] at hh
        simp only [List.head?_cons, Option.some.injEq] at hh
        simp [hh]
    have htw : b.data.takeWhile (fun ch => !(ch = '?')) ≠ [] := by
      rcases hbl : b.data with _ | ⟨c, t⟩
      · exact absurd hbl hbd
      · rw [hbl] at hbq
        have hc : ¬(c = '?') := by
          intro hc0
          exact hbq (by rw [hc0]; rfl)
        simp [List.takeWhile_cons, hc]
    have htruthy : jsTruthy ((jsSplitQ href).get? 1) = true := by
      rw [hget]
      simp only [jsTruthy]
      exact decide_eq_true (fun h0 => htw (congrArg String.data h0))
    simp only [bustHref, htruthy, if_true]
    exact congrArg (fun x => x ++ toString now)
      ((String.append_assoc href "&" "timestamp=").trans
        (congrArg (fun x => href ++ x) (by rfl)))

/-- C8 witness: concretely, a query-free URL gets `?timestamp=` and a URL
with a query string gets `&timestamp=`. -/
theorem C8_cacheBust_witness :
    bustHref "a.jpg" 7 = "a.jpg?timestamp=7" ∧
    bustHref "a.jpg?x=1" 7 = "a.jpg?x=1&timestamp=7" :=
  ⟨((C8_cacheBust "a.jpg" 7).1 (by decide)).trans (by rfl),
   ((C8_cacheBust "a.jpg?x=1" 7).2 "a.jpg" "x=1" (by rfl) (by decide)
     (by decide) (by decide)).trans (by rfl)⟩

/-- C6: the best-type selector returns the `image/jpeg` size map whenever
one exists (wherever it sits in insertion order), otherwise the first media
type's map in insertion order, and `undefined` on an empty mapping. -/
theorem C6_selectBest (byType : LinksByType) :
    (∀ m, getKeyV byType "image/jpeg" = some m → selectBest byType = some m) ∧
    (getKeyV byType "image/jpeg" = none →
      selectBest byType = byType.head?.map (fun p => p.2)) ∧
    (byType = [] → selectBest byType = none) := by
  refine ⟨fun m h => ?_, fun h => ?_, fun h => ?_⟩
  · simp only [selectBest]; rw [h]
  · simp only [selectBest]; rw [h]
  · subst h; rfl

/-- C6 witness: with `image/jpeg` inserted second, the selector still picks
it over the first-inserted `image/png`. -/
theorem C6_selectBest_witness :
    selectBest [("image/png", [("lowMin", "p")]), ("image/jpeg", [("lowMin", "j")])] =
      some [("lowMin", "j")] :=
  (C6_selectBest _).1 _ rfl

end OrgHM
